import Mathlib

/-
Verification development for the Feierabend calculator.

Shallow embedding conventions:
* Wall-clock instants on the calculator page are whole minutes from today's
  local midnight (`ℤ`); JavaScript `Date` values there always have seconds and
  milliseconds zeroed by `setHours(h, m, 0, 0)`, and `setHours` normalizes
  arbitrary integer arguments into the timestamp (day rollover), which the
  integer `h * 60 + m` reproduces.  A fixed UTC offset is assumed (no DST).
* The countdown page works in milliseconds (`ℤ`), matching its `diffMs`
  arithmetic.
* JavaScript numbers occurring in the calculator (target hours from
  `parseFloat`, balances, divisions by 60) are modelled as exact rationals
  (`ℚ`); break durations come from `parseInt` and are modelled as `ℤ`.
* The `now` instant passed to the calculator is a rational number of minutes,
  since the real `new Date()` carries seconds while parsed fields do not.
-/

/-- The configuration record handled by `ConfigManager` (`script.js`,
`src/unnamed/part_000`, `src/unnamed/part_001`): default
`{ targetHours: 8, breakDuration: 30, theme: 'system' }`. -/
structure Config where
  targetHours : ℚ
  breakDuration : ℤ
  theme : String
deriving DecidableEq, Repr

/-- Abstraction of a raw time input string as fed to `parseTime`:
`empty` is the empty string (falsy, so guarded out by `if (startTime)`),
`invalid` is a nonempty string at least one of whose first two `":"`-split
fields is mapped to `NaN` by `Number(...)`, and `valid h m` is a string whose
first two fields are numeric with integer values `h` and `m` (not necessarily
in range: `"25:99"` is `valid 25 99`). -/
inductive TimeField where
  | empty
  | invalid
  | valid (h m : ℤ)
deriving DecidableEq, Repr

/-- `FlexibleTimeCalculator.parseTime` (`src/unnamed/part_000` lines 964-973,
identical in `script.js` and `src/unnamed/part_001`): split on `":"`, map
`Number`, return `null` when either field is `NaN`, otherwise
`date.setHours(hours, minutes, 0, 0)`, i.e. the instant `h * 60 + m` minutes
from today's midnight.  There is no range check on `h` or `m`. -/
def parseTime : TimeField → Option ℤ
  | .empty => none
  | .invalid => none
  | .valid h m => some (h * 60 + m)

/-- Overnight normalization (`part_000` lines 874-876): `if (end <= start)
end.setDate(end.getDate() + 1)`, i.e. add one day (1440 minutes). -/
def overnightEnd (s e : ℤ) : ℤ :=
  if e ≤ s then e + 1440 else e

/-- `totalMinutes = (end - start) / (1000 * 60)` (`part_000` line 879), after
overnight normalization. -/
def totalMinutes (s e : ℤ) : ℤ :=
  overnightEnd s e - s

/-- Break-application flag (`part_000` lines 882-894): for
`totalHours < 6` the break is applied only when the force-break checkbox is
checked; for 6 hours or more it is mandatory. -/
def applyBreak (force : Bool) (tm : ℤ) : Bool :=
  if (tm : ℚ) / 60 < 6 then force else true

/-- `effectiveBreakDuration` (`part_000` lines 898-903): zero unless the
break is applied, in which case it is `Math.min(totalMinutes,
config.breakDuration)`. -/
def effectiveBreakDuration (force : Bool) (tm brk : ℤ) : ℤ :=
  if applyBreak force tm then min tm brk else 0

/-- `workingMinutes` (`part_000` lines 897-912): start from `totalMinutes`,
subtract the effective break only when it is positive, then clamp at zero
with `Math.max(0, workingMinutes)`. -/
def workingMinutes (force : Bool) (tm brk : ℤ) : ℤ :=
  max 0
    (if 0 < effectiveBreakDuration force tm brk then
       tm - effectiveBreakDuration force tm brk
     else tm)

/-- `FlexibleTimeCalculator.getEffectiveBreakDuration` (`part_000` lines
944-959): the break used for the suggested end time, evaluated against the
target duration.  Zero when the target is shorter than the break; otherwise
the configured break for targets of at least 6 hours, and for shorter targets
only when the force-break checkbox is checked. -/
def getEffectiveBreakDuration (cfg : Config) (force : Bool) : ℤ :=
  if (cfg.breakDuration : ℚ) ≤ cfg.targetHours * 60 then
    if 6 ≤ cfg.targetHours then cfg.breakDuration
    else if force then cfg.breakDuration else 0
  else 0

/-- Suggested end time (`part_000` lines 812, 857 and 929):
`start.getTime() + (targetMinutes + breakDuration) * 60 * 1000` with
`targetMinutes = config.targetHours * 60`; the inline block at lines 799-810
duplicates `getEffectiveBreakDuration` verbatim. -/
def suggestedEndOf (cfg : Config) (force : Bool) (s : ℤ) : ℚ :=
  (s : ℚ) + (cfg.targetHours * 60 + (getEffectiveBreakDuration cfg force : ℚ))

/-- The record passed to `updateResults` (`part_000` lines 859-865 and
932-938). -/
structure CalcResult where
  workingHours : ℚ
  targetHours : ℚ
  todayBalance : ℚ
  newTotalBalance : ℚ
  suggestedEndTime : ℚ
deriving DecidableEq, Repr

/-- The main-branch computation of `calculateTime` (`part_000` lines
873-938): overnight normalization, break eligibility by elapsed time,
capped subtraction, balances, and the target-based suggested end time. -/
def mainResult (cfg : Config) (force : Bool) (prior : ℚ) (s e : ℤ) : CalcResult :=
  let wh : ℚ := (workingMinutes force (totalMinutes s e) cfg.breakDuration : ℚ) / 60
  let tb : ℚ := wh - cfg.targetHours
  { workingHours := wh
    targetHours := cfg.targetHours
    todayBalance := tb
    newTotalBalance := prior + tb
    suggestedEndTime := suggestedEndOf cfg force s }

/-- The future-start special case of `calculateTime` (`part_000` lines
854-866): zero working hours, today balance the full negative target,
total `currentOvertimeBalance - config.targetHours`, suggested end time from
the target start. -/
def futureResult (cfg : Config) (force : Bool) (prior : ℚ) (s : ℤ) : CalcResult :=
  { workingHours := 0
    targetHours := cfg.targetHours
    todayBalance := -cfg.targetHours
    newTotalBalance := prior - cfg.targetHours
    suggestedEndTime := suggestedEndOf cfg force s }

/-- What `calculateTime` leaves on the page: the suggested-end display
(`none` renders as `--:--`) and the full result set (`none` when
`clearPartialResults` ran). -/
structure CalcOutput where
  suggestedEnd : Option ℚ
  results : Option CalcResult
deriving DecidableEq, Repr

/-- `FlexibleTimeCalculator.calculateTime` (`src/unnamed/part_000` lines
780-939), the Balance Calculator core.  Control flow in source order: the
early block computes the suggested end whenever the start string is truthy
and parseable; with either field missing the partial results are cleared and
only the suggestion survives; with both parseable, a start strictly in the
future whose end equals it takes the projection special case, otherwise the
main computation runs, and `updateResults` overwrites the suggested-end
display with the result's value. -/
def calculateTime (cfg : Config) (force : Bool) (now : ℚ)
    (startF endF : TimeField) (prior : ℚ) : CalcOutput :=
  let sugg1 : Option ℚ :=
    if startF = TimeField.empty then none
    else (parseTime startF).map (suggestedEndOf cfg force)
  if startF = TimeField.empty ∨ endF = TimeField.empty then ⟨sugg1, none⟩
  else
    match parseTime startF, parseTime endF with
    | some s, some e =>
      if now < (s : ℚ) ∧ s = e then
        ⟨some (futureResult cfg force prior s).suggestedEndTime,
         some (futureResult cfg force prior s)⟩
      else
        ⟨some (mainResult cfg force prior s e).suggestedEndTime,
         some (mainResult cfg force prior s e)⟩
    | _, _ => ⟨sugg1, none⟩

/-- Display mode of the countdown page. -/
inductive CdMode where
  | countingDown
  | countingUp
deriving DecidableEq, Repr, Inhabited

/-- The CSS class set on `countdownDisplay`
(`src/src/countdown/countdown.js` lines 314 and 366-375). -/
inductive DisplayClass where
  | regular
  | warning
  | danger
  | overtime
deriving DecidableEq, Repr, Inhabited

/-- The remaining-time colour bands of `updateCountdown`
(`countdown.js` lines 366-375): `diffMs < 15 * 60 * 1000` is danger,
otherwise `diffMs < 30 * 60 * 1000` is warning, otherwise regular. -/
def severityClass (diffMs : ℤ) : DisplayClass :=
  if diffMs < 15 * 60 * 1000 then DisplayClass.danger
  else if diffMs < 30 * 60 * 1000 then DisplayClass.warning
  else DisplayClass.regular

/-- The mutable fields of `CountdownManager` that `updateCountdown` reads and
writes (`countdown.js` lines 20-23): the target instant, the overtime flag
and the overtime anchor, all in milliseconds. -/
structure CState where
  targetTime : ℤ
  isOvertime : Bool
  overtimeStartTime : Option ℤ
deriving DecidableEq, Repr

/-- What one call to `updateCountdown` pushes to the display: the mode, the
raw displayed duration in milliseconds, the CSS class, and whether
`showEndOfWorkNotification` was invoked on this tick. -/
structure TickOut where
  mode : CdMode
  displayMs : ℤ
  cls : DisplayClass
  notified : Bool
deriving DecidableEq, Repr, Inhabited

/-- `CountdownManager.updateCountdown` (`countdown.js` lines 301-383) as a
state transformer on one tick instant `now`.  In overtime mode the display is
`now - (overtimeStartTime || targetTime)` and the state is unchanged; at the
first tick with `diffMs <= 0` the overtime flag is set, the anchor becomes
the current instant, `showEndOfWorkNotification` fires, and the re-entrant
call renders the overtime display (zero elapsed at that same instant);
otherwise the countdown display with its colour band is produced. -/
def updateCountdown (s : CState) (now : ℤ) : CState × TickOut :=
  if s.isOvertime then
    (s, { mode := CdMode.countingUp
          displayMs := now - s.overtimeStartTime.getD s.targetTime
          cls := DisplayClass.overtime
          notified := false })
  else
    let diffMs := s.targetTime - now
    if diffMs ≤ 0 then
      ({ targetTime := s.targetTime, isOvertime := true, overtimeStartTime := some now },
       { mode := CdMode.countingUp, displayMs := 0, cls := DisplayClass.overtime,
         notified := true })
    else
      (s, { mode := CdMode.countingDown, displayMs := diffMs,
            cls := severityClass diffMs, notified := false })

/-- The armed countdown state: `setTargetTime` with a future clock time
leaves `isOvertime = false` and `overtimeStartTime = null`
(`countdown.js` lines 20-23 and 245-276). -/
def armedState (t : ℤ) : CState :=
  { targetTime := t, isOvertime := false, overtimeStartTime := none }

/-- Iterating `updateCountdown` over a list of tick instants, collecting the
per-tick display payloads (the 1-second `setInterval` driver of
`startCountdown`, `countdown.js` lines 285-296). -/
def runTicks (s : CState) : List ℤ → CState × List TickOut
  | [] => (s, [])
  | n :: ns =>
    let p := updateCountdown s n
    let q := runTicks p.1 ns
    (q.1, p.2 :: q.2)

/-- A store of configuration objects: JavaScript object references are
numbers, live objects are fields of `store`, and `next` is the next fresh
reference. -/
structure Heap where
  next : ℕ
  store : ℕ → Config

/-- Reading the object a reference points to. -/
def readRef (h : Heap) (r : ℕ) : Config :=
  h.store r

/-- Mutating the object a reference points to (what a caller does to the
object returned by `getConfig`). -/
def writeRef (h : Heap) (r : ℕ) (c : Config) : Heap :=
  { next := h.next, store := fun x => if x = r then c else h.store x }

/-- Allocating a fresh object. -/
def allocRef (h : Heap) (c : Config) : Heap × ℕ :=
  ({ next := h.next + 1,
     store := fun x => if x = h.next then c else h.store x },
   h.next)

/-- `ConfigManager.getConfig` (`script.js` lines 45-47, identical in
`src/unnamed/part_001` and `src/src/countdown/countdown.js`):
`return { ...this.config }` — allocate a fresh object holding a shallow copy
of the stored configuration and return a reference to it. -/
def getConfig (h : Heap) (self : ℕ) : Heap × ℕ :=
  allocRef h (readRef h self)

/-! Helper lemmas shared by the claim theorems. -/

lemma parseTime_ne_empty {f : TimeField} {x : ℤ} (h : parseTime f = some x) :
    ¬ f = TimeField.empty := by
  intro he
  subst he
  simp [parseTime] at h

lemma totalMinutes_pos {s e : ℤ} (hs0 : 0 ≤ s) (hs1 : s ≤ 1439)
    (he0 : 0 ≤ e) (he1 : e ≤ 1439) : 0 < totalMinutes s e := by
  unfold totalMinutes overnightEnd
  split <;> omega

lemma calculateTime_main_eq (cfg : Config) (force : Bool) (now : ℚ)
    {startF endF : TimeField} {s e : ℤ} (prior : ℚ)
    (hs : parseTime startF = some s) (he : parseTime endF = some e)
    (hnf : ¬ (now < (s : ℚ) ∧ s = e)) :
    calculateTime cfg force now startF endF prior =
      ⟨some (mainResult cfg force prior s e).suggestedEndTime,
       some (mainResult cfg force prior s e)⟩ := by
  have h1 : ¬ startF = TimeField.empty := parseTime_ne_empty hs
  have h2 : ¬ endF = TimeField.empty := parseTime_ne_empty he
  simp [calculateTime, h1, h2, hs, he, hnf]

lemma calculateTime_future_eq (cfg : Config) (force : Bool) (now : ℚ)
    {startF endF : TimeField} {s e : ℤ} (prior : ℚ)
    (hs : parseTime startF = some s) (he : parseTime endF = some e)
    (hfut : now < (s : ℚ)) (heq : s = e) :
    calculateTime cfg force now startF endF prior =
      ⟨some (futureResult cfg force prior s).suggestedEndTime,
       some (futureResult cfg force prior s)⟩ := by
  have h1 : ¬ startF = TimeField.empty := parseTime_ne_empty hs
  have h2 : ¬ endF = TimeField.empty := parseTime_ne_empty he
  subst heq
  simp [calculateTime, h1, h2, hs, he, hfut]

/-- C3: for parseable start/end instants in the valid clock-face range with
`end <= start`, the end is moved to the following day before elapsed minutes
are computed, and the elapsed duration is always positive. -/
theorem overnight_normalization (s e : ℤ) (hs0 : 0 ≤ s) (hs1 : s ≤ 1439)
    (he0 : 0 ≤ e) (he1 : e ≤ 1439) :
    (e ≤ s → totalMinutes s e = e + 1440 - s) ∧ 0 < totalMinutes s e := by
  constructor
  · intro h
    unfold totalMinutes overnightEnd
    rw [if_pos h]
  · exact totalMinutes_pos hs0 hs1 he0 he1

/-- Witness for C3 at the spec's example: start 22:00, end 06:00 gives
8 elapsed hours, a positive duration. -/
theorem overnight_normalization_witness :
    totalMinutes 1320 360 = 480 ∧ 0 < totalMinutes 1320 360 := by
  have h := overnight_normalization 1320 360 (by decide) (by decide) (by decide) (by decide)
  refine ⟨?_, h.2⟩
  have h1 := h.1 (by decide)
  omega

/-- C9 counterexample: the numeric but out-of-range string "25:99" is not
rejected by `parseTime`; it parses to the rolled-over instant 1599 minutes
(next day 02:39) instead of the unparseable result. -/
theorem parseTime_out_of_range_accepted :
    parseTime (TimeField.valid 25 99) = some 1599 ∧
      ¬ parseTime (TimeField.valid 25 99) = none := by
  decide

/-- C9 amended: `parseTime` is total (never throws); it yields the
unparseable result exactly for the empty string and for non-numeric fields,
and any numeric pair of fields — in range or not — is accepted as the
instant `h * 60 + m`, day rollover included. -/
theorem parseTime_total_behavior (f : TimeField) (h m : ℤ) :
    (parseTime f = none ↔ f = TimeField.empty ∨ f = TimeField.invalid) ∧
      parseTime (TimeField.valid h m) = some (h * 60 + m) := by
  constructor
  · cases f <;> simp [parseTime]
  · rfl

/-- C5 counterexample: at exactly 30 minutes remaining the countdown class
is the normal one, not the warning one. -/
theorem severity_exact_thirty_not_warning :
    severityClass (30 * 60 * 1000) = DisplayClass.regular ∧
      ¬ severityClass (30 * 60 * 1000) = DisplayClass.warning := by
  decide

/-- C5 amended: in counting-down mode the band is a pure function of the
remaining time: strictly below 15 minutes is critical, at least 15 and
strictly below 30 minutes is warning (so exactly 15 minutes is warning), and
at least 30 minutes is normal (so exactly 30 minutes is normal, not
warning). -/
theorem severity_bands (s : CState) (now : ℤ)
    (hov : s.isOvertime = false) (hpos : 0 < s.targetTime - now) :
    (updateCountdown s now).2.mode = CdMode.countingDown ∧
    (updateCountdown s now).2.cls = severityClass (s.targetTime - now) ∧
    (s.targetTime - now < 900000 →
      severityClass (s.targetTime - now) = DisplayClass.danger) ∧
    (900000 ≤ s.targetTime - now → s.targetTime - now < 1800000 →
      severityClass (s.targetTime - now) = DisplayClass.warning) ∧
    (1800000 ≤ s.targetTime - now →
      severityClass (s.targetTime - now) = DisplayClass.regular) := by
  have h1 : ¬ (s.targetTime - now ≤ 0) := by omega
  refine ⟨?_, ?_, ?_, ?_, ?_⟩
  · simp [updateCountdown, hov, h1]
  · simp [updateCountdown, hov, h1]
  · intro h
    unfold severityClass
    rw [if_pos (by omega)]
  · intro h h'
    unfold severityClass
    rw [if_neg (by omega), if_pos (by omega)]
  · intro h
    unfold severityClass
    rw [if_neg (by omega), if_neg (by omega)]

/-- Witness for C5 at the boundary instants: exactly 30 minutes remaining in
a counting-down tick renders the normal band, and the tick's class is the
band of the remaining time. -/
theorem severity_bands_witness :
    (updateCountdown (armedState 1800000) 0).2.cls = severityClass 1800000 ∧
      severityClass 1800000 = DisplayClass.regular := by
  have h := severity_bands (armedState 1800000) 0 (by decide) (by decide)
  have h2 := h.2.2.2.2 (by decide)
  exact ⟨by simpa [armedState] using h.2.1, by simpa [armedState] using h2⟩

/-- C10: `getConfig` hands out a reference distinct from the manager's own
configuration object, holding equal contents; writing any record through the
returned reference leaves the manager's configuration unchanged, and a
subsequent `getConfig` still returns the original values. -/
theorem getConfig_fresh_copy (h : Heap) (self : ℕ) (hself : self < h.next)
    (c' : Config) :
    ¬ (getConfig h self).2 = self ∧
    readRef (getConfig h self).1 (getConfig h self).2 = readRef h self ∧
    readRef (getConfig h self).1 self = readRef h self ∧
    readRef (writeRef (getConfig h self).1 (getConfig h self).2 c') self
        = readRef h self ∧
    readRef (getConfig (writeRef (getConfig h self).1 (getConfig h self).2 c') self).1
        ((getConfig (writeRef (getConfig h self).1 (getConfig h self).2 c') self).2)
      = readRef h self := by
  have hne : ¬ self = h.next := by omega
  refine ⟨?_, ?_, ?_, ?_, ?_⟩ <;>
    simp [getConfig, allocRef, readRef, writeRef, hne]
  omega

/-- Witness for C10 on a one-cell heap: the copy is a distinct reference and
overwriting it leaves the manager's record intact. -/
theorem getConfig_fresh_copy_witness :
    ¬ (getConfig ⟨1, fun _ => ⟨8, 30, "system"⟩⟩ 0).2 = 0 ∧
      readRef
        (writeRef (getConfig ⟨1, fun _ => ⟨8, 30, "system"⟩⟩ 0).1
          (getConfig ⟨1, fun _ => ⟨8, 30, "system"⟩⟩ 0).2 ⟨1, 2, "dark"⟩) 0
        = readRef ⟨1, fun _ => ⟨8, 30, "system"⟩⟩ 0 := by
  have h := getConfig_fresh_copy ⟨1, fun _ => ⟨8, 30, "system"⟩⟩ 0 (by norm_num) ⟨1, 2, "dark"⟩
  exact ⟨h.1, h.2.2.2.1⟩

/-- C1: with both times parseable and in the valid clock-face range, a
non-negative configured break, and the main branch taken, whenever the break
is applied the amount subtracted from the elapsed minutes is exactly
`min(elapsedMinutes, breakMinutes)`, and the resulting working hours are
never negative. -/
theorem calculateTime_break_capped (cfg : Config) (force : Bool) (now : ℚ)
    (startF endF : TimeField) (s e : ℤ) (prior : ℚ)
    (hs : parseTime startF = some s) (he : parseTime endF = some e)
    (hnf : ¬ (now < (s : ℚ) ∧ s = e))
    (hbrk : 0 ≤ cfg.breakDuration)
    (hs0 : 0 ≤ s) (hs1 : s ≤ 1439) (he0 : 0 ≤ e) (he1 : e ≤ 1439) :
    (calculateTime cfg force now startF endF prior).results
        = some (mainResult cfg force prior s e) ∧
    0 ≤ (mainResult cfg force prior s e).workingHours ∧
    (applyBreak force (totalMinutes s e) = true →
      (mainResult cfg force prior s e).workingHours =
        ((totalMinutes s e : ℚ) - ((min (totalMinutes s e) cfg.breakDuration : ℤ) : ℚ)) / 60) := by
  have htm : 0 < totalMinutes s e := totalMinutes_pos hs0 hs1 he0 he1
  refine ⟨?_, ?_, ?_⟩
  · rw [calculateTime_main_eq cfg force now prior hs he hnf]
  · have hnn : (0 : ℤ) ≤ workingMinutes force (totalMinutes s e) cfg.breakDuration := by
      unfold workingMinutes
      exact le_max_left _ _
    simp only [mainResult]
    exact div_nonneg (by exact_mod_cast hnn) (by norm_num)
  · intro ha
    have key : workingMinutes force (totalMinutes s e) cfg.breakDuration
        = totalMinutes s e - min (totalMinutes s e) cfg.breakDuration := by
      simp only [workingMinutes, effectiveBreakDuration, ha, if_true]
      split <;> omega
    simp only [mainResult, key]
    push_cast
    ring

/-- Witness for C1 at the spec's break-cap example: start 09:00, end 09:20,
break 30 minutes, force-break set — the applied break is capped at the 20
elapsed minutes and the working hours come out zero, not negative. -/
theorem calculateTime_break_capped_witness :
    (calculateTime ⟨8, 30, "system"⟩ true 600 (TimeField.valid 9 0) (TimeField.valid 9 20) 0).results
        = some (mainResult ⟨8, 30, "system"⟩ true 0 540 560) ∧
      0 ≤ (mainResult ⟨8, 30, "system"⟩ true 0 540 560).workingHours ∧
      (applyBreak true (totalMinutes 540 560) = true →
        (mainResult ⟨8, 30, "system"⟩ true 0 540 560).workingHours =
          ((totalMinutes 540 560 : ℚ) - ((min (totalMinutes 540 560) 30 : ℤ) : ℚ)) / 60) :=
  calculateTime_break_capped ⟨8, 30, "system"⟩ true 600 (TimeField.valid 9 0)
    (TimeField.valid 9 20) 540 560 0 (by decide) (by decide) (by decide) (by decide)
    (by decide) (by decide) (by decide) (by decide)

/-- C2: with both times parseable, the main branch taken, and a positive
configured break no longer than the elapsed time, the break is subtracted
exactly when the elapsed time is at least 6 hours or the force-break
override is set; under 6 hours with the override unset nothing is
subtracted. -/
theorem calculateTime_break_eligibility (cfg : Config) (force : Bool) (now : ℚ)
    (startF endF : TimeField) (s e : ℤ) (prior : ℚ)
    (hs : parseTime startF = some s) (he : parseTime endF = some e)
    (hnf : ¬ (now < (s : ℚ) ∧ s = e))
    (hbrkpos : 0 < cfg.breakDuration)
    (hble : cfg.breakDuration ≤ totalMinutes s e) :
    (calculateTime cfg force now startF endF prior).results
        = some (mainResult cfg force prior s e) ∧
    (applyBreak force (totalMinutes s e) = true ↔
        (6 ≤ (totalMinutes s e : ℚ) / 60 ∨ force = true)) ∧
    (applyBreak force (totalMinutes s e) = true →
        (mainResult cfg force prior s e).workingHours =
          ((totalMinutes s e : ℚ) - (cfg.breakDuration : ℚ)) / 60) ∧
    (applyBreak force (totalMinutes s e) = false →
        (mainResult cfg force prior s e).workingHours = (totalMinutes s e : ℚ) / 60) := by
  refine ⟨?_, ?_, ?_, ?_⟩
  · rw [calculateTime_main_eq cfg force now prior hs he hnf]
  · unfold applyBreak
    split
    · next h6 =>
      have h6' : ¬ (6 ≤ (totalMinutes s e : ℚ) / 60) := not_le.mpr h6
      simp [h6']
    · next h6 =>
      simp [le_of_not_lt h6]
  · intro ha
    have key : workingMinutes force (totalMinutes s e) cfg.breakDuration
        = totalMinutes s e - cfg.breakDuration := by
      simp only [workingMinutes, effectiveBreakDuration, ha, if_true,
        min_eq_right hble]
      split <;> omega
    simp only [mainResult, key]
    push_cast
    ring
  · intro ha
    have key : workingMinutes force (totalMinutes s e) cfg.breakDuration
        = totalMinutes s e := by
      have hfalse : ¬ (applyBreak force (totalMinutes s e) = true) := by simp [ha]
      simp only [workingMinutes, effectiveBreakDuration, if_neg hfalse]
      split <;> omega
    simp only [mainResult, key]

/-- Witness for C2 at a 6.5-hour day with the override unset: the break is
mandatory and exactly the configured 30 minutes are subtracted. -/
theorem calculateTime_break_eligibility_witness :
    (calculateTime ⟨8, 30, "system"⟩ false 600 (TimeField.valid 9 0) (TimeField.valid 15 30) 0).results
        = some (mainResult ⟨8, 30, "system"⟩ false 0 540 930) ∧
      (applyBreak false (totalMinutes 540 930) = true ↔
        (6 ≤ (totalMinutes 540 930 : ℚ) / 60 ∨ false = true)) ∧
      (applyBreak false (totalMinutes 540 930) = true →
        (mainResult ⟨8, 30, "system"⟩ false 0 540 930).workingHours =
          ((totalMinutes 540 930 : ℚ) - ((30 : ℤ) : ℚ)) / 60) ∧
      (applyBreak false (totalMinutes 540 930) = false →
        (mainResult ⟨8, 30, "system"⟩ false 0 540 930).workingHours
          = (totalMinutes 540 930 : ℚ) / 60) :=
  calculateTime_break_eligibility ⟨8, 30, "system"⟩ false 600 (TimeField.valid 9 0)
    (TimeField.valid 15 30) 540 930 0 (by decide) (by decide) (by decide) (by decide)
    (by decide)

/-- C4: whenever the start time is parseable — whatever the end field holds —
the suggested end time is `start + targetHours * 60 + appliedBreak`, where
the applied break equals the configured break exactly when the target
duration is at least the break and (the target is at least 6 hours or the
force-break override is set), and is zero otherwise. -/
theorem suggestedEnd_formula (cfg : Config) (force : Bool) (now : ℚ)
    (startF endF : TimeField) (s : ℤ) (prior : ℚ)
    (hs : parseTime startF = some s) :
    (calculateTime cfg force now startF endF prior).suggestedEnd
        = some ((s : ℚ) + (cfg.targetHours * 60 + (getEffectiveBreakDuration cfg force : ℚ))) ∧
    getEffectiveBreakDuration cfg force =
      (if (cfg.breakDuration : ℚ) ≤ cfg.targetHours * 60 ∧ (6 ≤ cfg.targetHours ∨ force = true)
        then cfg.breakDuration else 0) := by
  constructor
  · have h1 : ¬ startF = TimeField.empty := parseTime_ne_empty hs
    rcases he : parseTime endF with _ | e
    · by_cases h2 : endF = TimeField.empty
      · simp [calculateTime, h1, h2, hs, suggestedEndOf]
      · simp [calculateTime, h1, h2, hs, he, suggestedEndOf]
    · by_cases hg : now < (s : ℚ) ∧ s = e
      · rw [calculateTime_future_eq cfg force now prior hs he hg.1 hg.2]
        simp [futureResult, suggestedEndOf]
      · rw [calculateTime_main_eq cfg force now prior hs he hg]
        simp [mainResult, suggestedEndOf]
  · unfold getEffectiveBreakDuration
    split_ifs <;> first | rfl | tauto

/-- Witness for C4 with a 4-hour target, 30-minute break and no override:
the suggestion is produced from the start alone (end field empty) and the
applied break is zero because the target is under 6 hours. -/
theorem suggestedEnd_formula_witness :
    (calculateTime ⟨4, 30, "system"⟩ false 0 (TimeField.valid 9 0) TimeField.empty 0).suggestedEnd
        = some ((540 : ℚ)
            + ((4 : ℚ) * 60 + ((getEffectiveBreakDuration ⟨4, 30, "system"⟩ false : ℤ) : ℚ))) :=
  (suggestedEnd_formula ⟨4, 30, "system"⟩ false 0 (TimeField.valid 9 0)
    TimeField.empty 540 0 (by decide)).1

/-- C7: with both fields parseable, the start strictly after the current
instant, and the end equal to the start, the result reports zero working
hours, a today balance of the full negative target, a total of the prior
balance minus the target, and still a suggested end time derived from the
future start. -/
theorem future_start_projection (cfg : Config) (force : Bool) (now : ℚ)
    (startF endF : TimeField) (s e : ℤ) (prior : ℚ)
    (hs : parseTime startF = some s) (he : parseTime endF = some e)
    (hfut : now < (s : ℚ)) (heq : s = e) :
    (calculateTime cfg force now startF endF prior).results
        = some (futureResult cfg force prior s) ∧
    (futureResult cfg force prior s).workingHours = 0 ∧
    (futureResult cfg force prior s).todayBalance = -cfg.targetHours ∧
    (futureResult cfg force prior s).newTotalBalance = prior - cfg.targetHours ∧
    (calculateTime cfg force now startF endF prior).suggestedEnd
        = some ((s : ℚ) + (cfg.targetHours * 60 + (getEffectiveBreakDuration cfg force : ℚ))) := by
  rw [calculateTime_future_eq cfg force now prior hs he hfut heq]
  exact ⟨rfl, rfl, rfl, rfl, rfl⟩

/-- Witness for C7: at midnight with start and end both 23:00, the day is a
pure projection — zero working hours and a today balance of minus the full
8-hour target. -/
theorem future_start_projection_witness :
    (calculateTime ⟨8, 30, "system"⟩ false 0 (TimeField.valid 23 0) (TimeField.valid 23 0) 0).results
        = some (futureResult ⟨8, 30, "system"⟩ false 0 1380) ∧
      (futureResult ⟨8, 30, "system"⟩ false 0 1380).todayBalance = -(8 : ℚ) := by
  have h := future_start_projection ⟨8, 30, "system"⟩ false 0 (TimeField.valid 23 0)
    (TimeField.valid 23 0) 1380 1380 0 (by decide) (by decide) (by norm_num) rfl
  exact ⟨h.1, by simpa using h.2.2.1⟩

/-- C8: with an 8-hour target, a 30-minute break and start 08:00, the
suggested end time is 16:30 (minute 990), and feeding 16:30 back as the end
time yields a today balance of exactly zero. -/
theorem suggested_roundtrip :
    (calculateTime ⟨8, 30, "system"⟩ false 0 (TimeField.valid 8 0) TimeField.empty 0).suggestedEnd
        = some ((16 : ℚ) * 60 + 30) ∧
      Option.map CalcResult.todayBalance
          (calculateTime ⟨8, 30, "system"⟩ false 0 (TimeField.valid 8 0)
            (TimeField.valid 16 30) 0).results = some 0 := by
  have h1 : ¬ (TimeField.valid 8 0 = TimeField.empty) := by decide
  have h2 : ¬ (TimeField.valid 16 30 = TimeField.empty) := by decide
  norm_num [calculateTime, parseTime, suggestedEndOf, getEffectiveBreakDuration,
    mainResult, futureResult, workingMinutes, effectiveBreakDuration, applyBreak,
    totalMinutes, overnightEnd, h1, h2]

lemma updateCountdown_overtime {s : CState} (h : s.isOvertime = true) (now : ℤ) :
    updateCountdown s now =
      (s, { mode := CdMode.countingUp,
            displayMs := now - s.overtimeStartTime.getD s.targetTime,
            cls := DisplayClass.overtime, notified := false }) := by
  simp [updateCountdown, h]

lemma runTicks_overtime {s : CState} (h : s.isOvertime = true) (l : List ℤ) :
    (runTicks s l).1 = s ∧
      (runTicks s l).2.countP (fun o => o.notified) = 0 := by
  induction l with
  | nil => simp [runTicks]
  | cons x xs ih =>
    simp [runTicks, updateCountdown_overtime h, List.countP_cons, ih]

lemma updateCountdown_cross (t now : ℤ) (h : t ≤ now) :
    updateCountdown (armedState t) now =
      (⟨t, true, some now⟩,
       { mode := CdMode.countingUp, displayMs := 0, cls := DisplayClass.overtime,
         notified := true }) := by
  have h1 : t - now ≤ 0 := by omega
  simp [updateCountdown, armedState, h1]

lemma updateCountdown_pre (t now : ℤ) (h : now < t) :
    updateCountdown (armedState t) now =
      (armedState t,
       { mode := CdMode.countingDown, displayMs := t - now,
         cls := severityClass (t - now), notified := false }) := by
  have h1 : ¬ (t - now ≤ 0) := by omega
  simp [updateCountdown, armedState, h1]

/-- C6: over any sequence of ticks on an armed countdown, at the first tick
whose instant reaches or passes the target the state switches to counting up,
the overtime anchor becomes that tick's instant (not the target), the
crossed-into-overtime signal fires on that tick with the counting-up mode,
and across the whole sequence the signal fires exactly once — in particular
never again once in counting-up mode. -/
theorem countdown_crossing_once (t : ℤ) (l : List ℤ) (i : ℕ) (hi : i < l.length)
    (hbefore : ∀ x ∈ l.take i, x < t) (hcross : t ≤ l.getD i 0) :
    ((runTicks (armedState t) l).1.isOvertime = true) ∧
    ((runTicks (armedState t) l).1.overtimeStartTime = some (l.getD i 0)) ∧
    (((runTicks (armedState t) l).2.getD i default).notified = true) ∧
    (((runTicks (armedState t) l).2.getD i default).mode = CdMode.countingUp) ∧
    ((runTicks (armedState t) l).2.countP (fun o => o.notified) = 1) := by
  induction l generalizing i with
  | nil => simp at hi
  | cons x xs ih =>
    cases i with
    | zero =>
      have hx : t ≤ x := by simpa using hcross
      have hrest := runTicks_overtime (s := ⟨t, true, some x⟩) rfl xs
      simp only [runTicks, updateCountdown_cross t x hx]
      refine ⟨?_, ?_, ?_, ?_, ?_⟩
      · rw [hrest.1]
      · rw [hrest.1]
        simp
      · simp
      · simp
      · simp [List.countP_cons, hrest.2]
    | succ j =>
      have hx : x < t := hbefore x (by simp)
      have hbefore' : ∀ y ∈ xs.take j, y < t := fun y hy =>
        hbefore y (by simp [hy])
      have hi' : j < xs.length := by simpa using hi
      have hcross' : t ≤ xs.getD j 0 := by simpa using hcross
      have ih' := ih j hi' hbefore' hcross'
      simp only [runTicks, updateCountdown_pre t x hx]
      simpa [List.getD_cons_succ, List.countP_cons] using ih'

/-- Witness for C6: armed at instant 10 with ticks at 5, 12 and 20, the
anchor is the crossing tick's instant 12 and the signal fires exactly once
across the sequence. -/
theorem countdown_crossing_once_witness :
    ((runTicks (armedState 10) [5, 12, 20]).1.overtimeStartTime = some 12) ∧
      ((runTicks (armedState 10) [5, 12, 20]).2.countP (fun o => o.notified) = 1) := by
  have h := countdown_crossing_once 10 [5, 12, 20] 1 (by decide) (by decide) (by decide)
  exact ⟨by simpa using h.2.1, h.2.2.2.2⟩
